import Mathlib

/-!
Verification of the rpi-led-cube repository: a shallow embedding of its
frame data type, the geometric rotations, the GPIO cube driver trace
semantics, and the render pipeline and forwarder loops, together with
proofs of the specified properties.
-/

set_option maxHeartbeats 1000000
set_option maxRecDepth 100000

/-- A volumetric frame, from main.rs: outer index is Z/layer, inner index
is X/row, each entry is a byte whose bit is Y/column.  Bytes are modelled
as natural numbers; the u8 range invariant (entries below 256) is carried
as an explicit hypothesis where it matters. -/
abbrev Frame := Fin 8 → Fin 8 → Nat

/-- The bit test from main.rs, written there as e and (1 shl k) bne 0 on u8. -/
def hasBit (e k : Nat) : Bool := e &&& (1 <<< k) != 0

/-- The row-building fold from Rotation.apply in main.rs: fold over eight
bits, at each step shifting the u8 accumulator left by one (discarding the
high bit, as u8 shl does) and adding the next bit. -/
def foldRow (g : Fin 8 → Bool) : Nat :=
  (List.finRange 8).foldl
    (fun acc i => ((acc * 2) % 256 + (if g i then 1 else 0)) % 256) 0

/-- The rotation selector from main.rs (clap value enum). -/
inductive Rotation
  | none
  | i
  | j
  | k
deriving DecidableEq

/-- Rotation.apply from main.rs lines 68-91, branch by branch:
the None branch clones, the I branch builds each output row by folding
bit layer of data l row over l, the J branch reindexes with
data row (7 - layer), and the K branch folds bit row of data layer c
over c. -/
def Rotation.apply : Rotation → Frame → Frame
  | .none, data => data
  | .i, data => fun layer row => foldRow (fun l => hasBit (data l row) layer.val)
  | .j, data => fun layer row => data row ⟨7 - layer.val, by omega⟩
  | .k, data => fun layer row => foldRow (fun c => hasBit (data layer c) row.val)

/-- The global inversion from run_routine in main.rs: xor every row with 0xff. -/
def invertFrame (f : Frame) : Frame := fun l r => (f l r) ^^^ 0xff

lemma hasBit_eq_testBit (e k : Nat) : hasBit e k = e.testBit k := by
  unfold hasBit
  rw [Nat.one_shiftLeft, Nat.and_two_pow]
  rcases h : e.testBit k <;> simp [h]

lemma foldRow_lt (g : Fin 8 → Bool) : foldRow g < 256 := by
  revert g; decide

lemma testBit_foldRow_fin (g : Fin 8 → Bool) (c : Fin 8) :
    (foldRow g).testBit c.val = g ⟨7 - c.val, by omega⟩ := by
  revert g c; decide

lemma testBit_foldRow (g : Fin 8 → Bool) (c : Nat) (hc : c < 8) :
    (foldRow g).testBit c = g ⟨7 - c, by omega⟩ := by
  exact testBit_foldRow_fin g ⟨c, hc⟩

lemma foldRow_not (g : Fin 8 → Bool) :
    foldRow (fun i => !(g i)) = (foldRow g) ^^^ 255 := by
  revert g; decide

lemma testBit_applyI (f : Frame) (l r : Fin 8) (c : Nat) (hc : c < 8) :
    ((Rotation.apply .i f) l r).testBit c
      = (f ⟨7 - c, by omega⟩ r).testBit l.val := by
  show (foldRow _).testBit c = _
  rw [testBit_foldRow _ c hc, hasBit_eq_testBit]

lemma testBit_applyK (f : Frame) (l r : Fin 8) (c : Nat) (hc : c < 8) :
    ((Rotation.apply .k f) l r).testBit c
      = (f l ⟨7 - c, by omega⟩).testBit r.val := by
  show (foldRow _).testBit c = _
  rw [testBit_foldRow _ c hc, hasBit_eq_testBit]

lemma applyI_lt (f : Frame) (l r : Fin 8) : (Rotation.apply .i f) l r < 256 :=
  foldRow_lt _

lemma applyK_lt (f : Frame) (l r : Fin 8) : (Rotation.apply .k f) l r < 256 :=
  foldRow_lt _

lemma testBit_high_of_lt {n i : Nat} (hn : n < 256) (hi : 8 ≤ i) :
    n.testBit i = false := by
  apply Nat.testBit_lt_two_pow
  calc n < 256 := hn
    _ = 2 ^ 8 := by norm_num
    _ ≤ 2 ^ i := Nat.pow_le_pow_right (by norm_num) hi

/-- A sample frame with all 64 entries distinct, used to instantiate
universally quantified theorems on a concrete input. -/
def wFrame : Frame := fun l r => l.val * 8 + r.val

/-- A frame lit only at layer 0, row 0, column 0. -/
def cexFrame : Frame := fun l r => if l.val = 0 ∧ r.val = 0 then 1 else 0

/-- The frame of the spec example: layer 3 fully lit, all other layers dark. -/
def layer3Frame : Frame := fun l _ => if l.val = 3 then 0xff else 0

/-- The frame the spec example predicts: column 4 lit in every layer and row. -/
def col4Frame : Frame := fun _ _ => 0x10

/-- The frame the code actually produces for the spec example: row 3 fully
lit in every layer. -/
def row3Frame : Frame := fun _ r => if r.val = 3 then 0xff else 0

/-- C1: for every byte-valued Frame f and each non-identity rotation R,
applying Rotation.apply with R four times returns f unchanged. -/
theorem rotation_period_four (f : Frame) (hf : ∀ l r, f l r < 256)
    (R : Rotation) (hR : R ≠ Rotation.none) :
    R.apply (R.apply (R.apply (R.apply f))) = f := by
  cases R with
  | none => exact absurd rfl hR
  | i =>
    funext l r
    apply Nat.eq_of_testBit_eq
    intro c
    by_cases hc : c < 8
    · rw [testBit_applyI _ _ _ _ hc]
      rw [testBit_applyI _ _ _ _ l.isLt]
      rw [testBit_applyI _ _ _ _ (show 7 - c < 8 by omega)]
      rw [testBit_applyI _ _ _ _ (show 7 - l.val < 8 by omega)]
      have hl : (⟨7 - (7 - l.val), by omega⟩ : Fin 8) = l := by
        apply Fin.ext
        show 7 - (7 - l.val) = l.val
        have := l.isLt
        omega
      have hcc : 7 - (7 - c) = c := by omega
      rw [hl]
      show (f l r).testBit (7 - (7 - c)) = (f l r).testBit c
      rw [hcc]
    · rw [testBit_high_of_lt (applyI_lt _ l r) (by omega),
        testBit_high_of_lt (hf l r) (by omega)]
  | j =>
    funext l r
    show f _ _ = f l r
    have hl : (⟨7 - (7 - l.val), by omega⟩ : Fin 8) = l := by
      apply Fin.ext
      show 7 - (7 - l.val) = l.val
      have := l.isLt
      omega
    have hr : (⟨7 - (7 - r.val), by omega⟩ : Fin 8) = r := by
      apply Fin.ext
      show 7 - (7 - r.val) = r.val
      have := r.isLt
      omega
    exact congrArg₂ f hl hr
  | k =>
    funext l r
    apply Nat.eq_of_testBit_eq
    intro c
    by_cases hc : c < 8
    · rw [testBit_applyK _ _ _ _ hc]
      rw [testBit_applyK _ _ _ _ r.isLt]
      rw [testBit_applyK _ _ _ _ (show 7 - c < 8 by omega)]
      rw [testBit_applyK _ _ _ _ (show 7 - r.val < 8 by omega)]
      have hr : (⟨7 - (7 - r.val), by omega⟩ : Fin 8) = r := by
        apply Fin.ext
        show 7 - (7 - r.val) = r.val
        have := r.isLt
        omega
      have hcc : 7 - (7 - c) = c := by omega
      rw [hr]
      show (f l r).testBit (7 - (7 - c)) = (f l r).testBit c
      rw [hcc]
    · rw [testBit_high_of_lt (applyK_lt _ l r) (by omega),
        testBit_high_of_lt (hf l r) (by omega)]

/-- Witness for C1 at the concrete frame wFrame and rotation I. -/
theorem rotation_period_four_check :
    (∀ l r, wFrame l r < 256) ∧ Rotation.i ≠ Rotation.none ∧
      Rotation.apply Rotation.i (Rotation.apply Rotation.i
        (Rotation.apply Rotation.i (Rotation.apply Rotation.i wFrame))) = wFrame :=
  ⟨by decide, by decide,
    rotation_period_four wFrame (by decide) Rotation.i (by decide)⟩

/-- C9: for every Frame f and indices l, r below 8, the RotateAboutY result
at layer l, row r is the input row at layer r, row 7 - l. -/
theorem rotateY_formula (f : Frame) (l r : Fin 8) :
    Rotation.apply Rotation.j f l r = f r ⟨7 - l.val, by omega⟩ := rfl

/-- C4 counterexample: at the frame lit only at layer 0, row 0, column 0,
bit 0 of the RotateAboutX result at layer 0, row 0 differs from bit 0 of
the input at layer 0, row 0, refuting the claimed formula at l = r = c = 0. -/
theorem rotateX_bit_formula_cex :
    (Rotation.apply Rotation.i cexFrame 0 0).testBit 0
      ≠ (cexFrame 0 0).testBit 0 := by decide

/-- C4 amended: bit c of the RotateAboutX result at layer l, row r equals
bit l of the input at layer 7 - c, row r (the fold is most-significant-bit
first, so the source layer index is mirrored). -/
theorem rotateX_bit_formula (f : Frame) (l r c : Fin 8) :
    (Rotation.apply Rotation.i f l r).testBit c.val
      = (f ⟨7 - c.val, by omega⟩ r).testBit l.val :=
  testBit_applyI f l r c.val c.isLt

/-- C5 counterexample: rotating the layer-3-fully-lit frame about Y does
not produce the frame with column 4 lit everywhere. -/
theorem rotateY_layer3_cex :
    Rotation.apply Rotation.j layer3Frame ≠ col4Frame := by decide

/-- C5 amended: rotating the layer-3-fully-lit frame about Y produces the
frame whose row 3 is fully lit in every layer, all other rows dark. -/
theorem rotateY_layer3 :
    Rotation.apply Rotation.j layer3Frame = row3Frame := by decide

/-- C10: global inversion commutes with every rotation, identity included. -/
theorem invert_commutes_apply (f : Frame) (R : Rotation) :
    invertFrame (R.apply f) = R.apply (invertFrame f) := by
  have hbit : ∀ (e : Nat) (k : Fin 8),
      hasBit (e ^^^ 255) k.val = !(hasBit e k.val) := by
    intro e k
    rw [hasBit_eq_testBit, hasBit_eq_testBit, Nat.testBit_xor]
    have h255 : (255 : Nat).testBit k.val = true := by
      have : (255 : Nat) = 2 ^ 8 - 1 := by norm_num
      rw [this, Nat.testBit_two_pow_sub_one]
      simp [k.isLt]
    rw [h255, Bool.xor_true]
  cases R with
  | none => rfl
  | j => rfl
  | i =>
    funext l r
    show (foldRow fun x => hasBit (f x r) l.val) ^^^ 255
      = foldRow fun x => hasBit ((f x r) ^^^ 255) l.val
    have hg : (fun x => hasBit ((f x r) ^^^ 255) l.val)
        = fun x => !(hasBit (f x r) l.val) := funext fun x => hbit (f x r) l
    rw [hg, foldRow_not]
  | k =>
    funext l r
    show (foldRow fun x => hasBit (f l x) r.val) ^^^ 255
      = foldRow fun x => hasBit ((f l x) ^^^ 255) r.val
    have hg : (fun x => hasBit ((f l x) ^^^ 255) r.val)
        = fun x => !(hasBit (f l x) r.val) := funext fun x => hbit (f l x) r
    rw [hg, foldRow_not]

/-- The GPIO output lines owned by CubeDriver in cube.rs. -/
inductive Line
  | par1 | par2 | par3 | par4 | par5 | par6 | par7 | par8
  | parRclk | parSrclk | parSrclr
  | layerSelBit0 | layerSelBit1 | layerSelBit2
  | outEnable
deriving DecidableEq

/-- A GPIO logic level, as in the rppal interface used by cube.rs. -/
inductive Level
  | low
  | high
deriving DecidableEq

/-- One recorded write of a level to a line. -/
abbrev LineWrite := Line × Level

/-- check_bit from cube.rs: low when value masked with pow2 is zero,
high otherwise. -/
def check_bit (value pow2 : Nat) : Level :=
  if value &&& pow2 = 0 then Level.low else Level.high

/-- The trace of line writes performed by CubeDriver write_row in cube.rs
lines 120-139: the eight data lines receive the bits of the pattern with
masks 1 to 128, then the shift clock is pulsed high then low.  Sleeps
perform no line writes and are omitted from the trace. -/
def CubeDriver.write_row (pattern : Nat) : List LineWrite :=
  [(Line.par1, check_bit pattern 1), (Line.par2, check_bit pattern 2),
   (Line.par3, check_bit pattern 4), (Line.par4, check_bit pattern 8),
   (Line.par5, check_bit pattern 16), (Line.par6, check_bit pattern 32),
   (Line.par7, check_bit pattern 64), (Line.par8, check_bit pattern 128),
   (Line.parSrclk, Level.high), (Line.parSrclk, Level.low)]

/-- The trace of CubeDriver set_layer in cube.rs lines 114-118. -/
def CubeDriver.set_layer (layer : Nat) : List LineWrite :=
  [(Line.layerSelBit0, check_bit layer 1),
   (Line.layerSelBit1, check_bit layer 2),
   (Line.layerSelBit2, check_bit layer 4)]

/-- The trace of CubeDriver write_layer in cube.rs lines 141-160: the eight
rows in order, then output disabled (high, active low), the latch clock
raised, the layer select written, the latch clock lowered and output
re-enabled. -/
def CubeDriver.write_layer (layer : Nat) (rows : Fin 8 → Nat) : List LineWrite :=
  ((List.finRange 8).flatMap fun r => CubeDriver.write_row (rows r))
    ++ [(Line.outEnable, Level.high), (Line.parRclk, Level.high)]
    ++ CubeDriver.set_layer layer
    ++ [(Line.parRclk, Level.low), (Line.outEnable, Level.low)]

/-- The trace of CubeDriver write_frame in cube.rs lines 167-172: one
write_layer per layer, the layers paired with indices 0 to 7 in order. -/
def CubeDriver.write_frame (data : Frame) : List LineWrite :=
  (List.finRange 8).flatMap fun l => CubeDriver.write_layer l.val (data l)

/-- The level of bit k of a byte, high when the bit is set; used by the
spec-worded description of the protocol trace. -/
def bitLevel (v k : Nat) : Level :=
  if v.testBit k then Level.high else Level.low

/-- The per-row trace in the words of the spec protocol step 1: present the
row byte on the eight data lines (bit c on data line c), then one
shift-clock high-then-low pulse. -/
def specRowTrace (pattern : Nat) : List LineWrite :=
  [(Line.par1, bitLevel pattern 0), (Line.par2, bitLevel pattern 1),
   (Line.par3, bitLevel pattern 2), (Line.par4, bitLevel pattern 3),
   (Line.par5, bitLevel pattern 4), (Line.par6, bitLevel pattern 5),
   (Line.par7, bitLevel pattern 6), (Line.par8, bitLevel pattern 7),
   (Line.parSrclk, Level.high), (Line.parSrclk, Level.low)]

/-- The per-layer trace in the words of the spec protocol steps 1-3: the
eight rows in order, output enable driven to its disabling level (high),
the latch clock pulsed high then low with the three layer-select lines
driven to the binary encoding of the layer index (bits 0, 1, 2) between
the two latch edges, and output then re-enabled. -/
def specLayerTrace (layer : Nat) (rows : Fin 8 → Nat) : List LineWrite :=
  ((List.finRange 8).flatMap fun r => specRowTrace (rows r))
    ++ [(Line.outEnable, Level.high), (Line.parRclk, Level.high),
        (Line.layerSelBit0, bitLevel layer 0),
        (Line.layerSelBit1, bitLevel layer 1),
        (Line.layerSelBit2, bitLevel layer 2),
        (Line.parRclk, Level.low), (Line.outEnable, Level.low)]

/-- The full-sweep trace in the words of the spec: the eight layers in
increasing order 0 to 7. -/
def specSweepTrace (data : Frame) : List LineWrite :=
  (List.finRange 8).flatMap fun l => specLayerTrace l.val (data l)

lemma check_bit_pow (v k : Nat) : check_bit v (2 ^ k) = bitLevel v k := by
  unfold check_bit bitLevel
  rw [Nat.and_two_pow]
  rcases h : v.testBit k <;> simp [h, Nat.pos_iff_ne_zero]

lemma write_row_eq_spec (p : Nat) : CubeDriver.write_row p = specRowTrace p := by
  have h0 : check_bit p 1 = bitLevel p 0 := by simpa using check_bit_pow p 0
  have h1 : check_bit p 2 = bitLevel p 1 := by simpa using check_bit_pow p 1
  have h2 : check_bit p 4 = bitLevel p 2 := by simpa using check_bit_pow p 2
  have h3 : check_bit p 8 = bitLevel p 3 := by simpa using check_bit_pow p 3
  have h4 : check_bit p 16 = bitLevel p 4 := by simpa using check_bit_pow p 4
  have h5 : check_bit p 32 = bitLevel p 5 := by simpa using check_bit_pow p 5
  have h6 : check_bit p 64 = bitLevel p 6 := by simpa using check_bit_pow p 6
  have h7 : check_bit p 128 = bitLevel p 7 := by simpa using check_bit_pow p 7
  simp [CubeDriver.write_row, specRowTrace, h0, h1, h2, h3, h4, h5, h6, h7]

/-- C2: for every Frame, the trace of line writes of one write_frame call
is exactly the sweep the spec prescribes: the eight layers in increasing
order, each presenting its eight rows in order with one shift-clock pulse
per row, then disabling output, pulsing the latch clock around the binary
layer-select writes, and re-enabling output. -/
theorem write_frame_protocol (data : Frame) :
    CubeDriver.write_frame data = specSweepTrace data := by
  unfold CubeDriver.write_frame specSweepTrace
  congr 1
  funext l
  have h0 : check_bit l.val 1 = bitLevel l.val 0 := by
    simpa using check_bit_pow l.val 0
  have h1 : check_bit l.val 2 = bitLevel l.val 1 := by
    simpa using check_bit_pow l.val 1
  have h2 : check_bit l.val 4 = bitLevel l.val 2 := by
    simpa using check_bit_pow l.val 2
  simp [CubeDriver.write_layer, specLayerTrace, CubeDriver.set_layer,
    write_row_eq_spec, h0, h1, h2]

/-- The state of the GPIO lines: the last written level of each line. -/
def PinState := Line → Level

/-- One line write applied to a pin state. -/
def setLine (s : PinState) (w : LineWrite) : PinState :=
  fun l => if l = w.fst then w.snd else s l

/-- A list of line writes applied to a pin state in order. -/
def runWrites (s : PinState) (ws : List LineWrite) : PinState :=
  ws.foldl setLine s

/-- The writes of the Drop implementation for CubeDriver in cube.rs lines
44-62, in program order: layer select bits low, output enable high, data
lines low, latch clock, shift clock and clear line low. -/
def CubeDriver.dropTrace : List LineWrite :=
  [(Line.layerSelBit0, Level.low), (Line.layerSelBit1, Level.low),
   (Line.layerSelBit2, Level.low), (Line.outEnable, Level.high),
   (Line.par1, Level.low), (Line.par2, Level.low), (Line.par3, Level.low),
   (Line.par4, Level.low), (Line.par5, Level.low), (Line.par6, Level.low),
   (Line.par7, Level.low), (Line.par8, Level.low),
   (Line.parRclk, Level.low), (Line.parSrclk, Level.low),
   (Line.parSrclr, Level.low)]

/-- The inert level of each line: output enable high (it is active low, so
high disables visible output), every other line low. -/
def inertLevel : Line → Level
  | Line.outEnable => Level.high
  | _ => Level.low

/-- C3: after the Drop teardown trace runs, every line reads its inert
level, regardless of the driver state before teardown. -/
theorem drop_resets_lines (s : PinState) (l : Line) :
    runWrites s CubeDriver.dropTrace l = inertLevel l := by
  cases l <;> rfl

/-- The outcome of one non-blocking try_recv on the frame channel, as in
std mpsc: a frame, an empty channel, or a disconnected (closed) channel. -/
inductive RecvAttempt
  | ok (f : Frame)
  | empty
  | disconnected

/-- Boolean test for the disconnected outcome. -/
def RecvAttempt.isClosed : RecvAttempt → Bool
  | RecvAttempt.disconnected => true
  | _ => false

/-- The loop of spawn_display in main.rs lines 167-176, run over a
sequence of try_recv outcomes: an Ok frame replaces the current frame, a
Disconnected outcome breaks the loop, and in every non-breaking iteration
the current frame is written to the driver.  The returned list is the
sequence of frames passed to write_frame, one per iteration. -/
def displayLoop (curr : Frame) : List RecvAttempt → List Frame
  | [] => []
  | RecvAttempt.ok f :: rest => f :: displayLoop f rest
  | RecvAttempt.empty :: rest => curr :: displayLoop curr rest
  | RecvAttempt.disconnected :: _ => []

/-- The frame held after folding a sequence of try_recv outcomes: the
payload of the last Ok outcome, or the starting frame if there is none. -/
def lastOk (curr : Frame) (obs : List RecvAttempt) : Frame :=
  obs.foldl (fun c o => match o with | RecvAttempt.ok f => f | _ => c) curr

lemma displayLoop_eq_map (curr : Frame) (obs : List RecvAttempt)
    (h : ∀ o ∈ obs, o.isClosed = false) :
    displayLoop curr obs
      = (List.range obs.length).map (fun n => lastOk curr (obs.take (n + 1))) := by
  induction obs generalizing curr with
  | nil => rfl
  | cons o rest ih =>
    have hrest : ∀ x ∈ rest, x.isClosed = false :=
      fun x hx => h x (List.mem_cons_of_mem _ hx)
    have ho : o.isClosed = false := h o (List.mem_cons_self _ _)
    cases o with
    | ok f =>
      simp only [displayLoop, List.length_cons, List.range_succ_eq_map,
        List.map_cons, List.map_map]
      rw [ih f hrest]
      rfl
    | empty =>
      simp only [displayLoop, List.length_cons, List.range_succ_eq_map,
        List.map_cons, List.map_map]
      rw [ih curr hrest]
      rfl
    | disconnected => simp [RecvAttempt.isClosed] at ho

lemma displayLoop_stops_at_disconnect (curr : Frame)
    (pre rest : List RecvAttempt) :
    displayLoop curr (pre ++ RecvAttempt.disconnected :: rest)
      = displayLoop curr pre := by
  induction pre generalizing curr with
  | nil => rfl
  | cons o t ih =>
    cases o with
    | ok f =>
      simp only [List.cons_append, displayLoop]
      exact congrArg (List.cons f) (ih f)
    | empty =>
      simp only [List.cons_append, displayLoop]
      exact congrArg (List.cons curr) (ih curr)
    | disconnected => rfl

/-- C6: the render pipeline loop, run over any sequence of mailbox
observations that never reports the channel closed, performs one display
per observation (it never stops on an empty mailbox) and the frame
displayed at each iteration is the latest delivered frame so far, the
initial frame if none has arrived; and the loop stops exactly at the first
closed observation, displaying nothing from that point on. -/
theorem display_loop_behaviour (curr : Frame) (obs pre rest : List RecvAttempt)
    (h : ∀ o ∈ obs, RecvAttempt.isClosed o = false) :
    displayLoop curr obs
      = (List.range obs.length).map (fun n => lastOk curr (obs.take (n + 1)))
    ∧ displayLoop curr (pre ++ RecvAttempt.disconnected :: rest)
      = displayLoop curr pre :=
  ⟨displayLoop_eq_map curr obs h, displayLoop_stops_at_disconnect curr pre rest⟩

/-- Witness for C6 on a concrete observation sequence. -/
theorem display_loop_behaviour_check :
    (∀ o ∈ [RecvAttempt.empty, RecvAttempt.ok layer3Frame, RecvAttempt.empty],
        RecvAttempt.isClosed o = false)
    ∧ (displayLoop wFrame [RecvAttempt.empty, RecvAttempt.ok layer3Frame,
          RecvAttempt.empty]
        = (List.range
            ([RecvAttempt.empty, RecvAttempt.ok layer3Frame,
              RecvAttempt.empty] : List RecvAttempt).length).map
            (fun n => lastOk wFrame
              ([RecvAttempt.empty, RecvAttempt.ok layer3Frame,
                RecvAttempt.empty].take (n + 1)))
      ∧ displayLoop wFrame ([RecvAttempt.empty]
            ++ RecvAttempt.disconnected :: [RecvAttempt.empty])
        = displayLoop wFrame [RecvAttempt.empty]) :=
  ⟨by decide, display_loop_behaviour wFrame _ [RecvAttempt.empty]
    [RecvAttempt.empty] (by decide)⟩

/-- The sender-visible state of a std mpsc sync_channel: the bound passed
at creation, the buffered frames, and whether the receiver is alive. -/
structure SyncChannel where
  bound : Nat
  queue : List Frame
  receiverAlive : Bool

/-- The outcome of one send on a sync_channel: buffered, blocked waiting
for the receiver, or failed because the receiver is gone (the send error
spawn_ratelimited_display and run_routine observe, the PipelineClosed
condition of the spec). -/
inductive SendOutcome
  | delivered (c : SyncChannel)
  | blocked
  | closed

/-- Modelled from the documented std sync_channel semantics relied on by
spawn_display in main.rs: send fails when the receiver has hung up,
buffers the frame while the queue is below the bound, and otherwise
blocks until the receiver catches up; it never overwrites a buffered
frame. -/
def SyncChannel.send (c : SyncChannel) (f : Frame) : SendOutcome :=
  if c.receiverAlive = false then SendOutcome.closed
  else if c.queue.length < c.bound then
    SendOutcome.delivered { c with queue := c.queue ++ [f] }
  else SendOutcome.blocked

/-- The bound spawn_display passes to sync_channel in main.rs line 160:
a rendezvous channel with no buffer slot. -/
def pipelineBound : Nat := 0

/-- C7 counterexample: on the render pipeline channel (bound 0) with the
receiver alive and nothing pending, a send blocks rather than delivering
or overwriting, refuting the never-blocking single-slot description. -/
theorem mailbox_overwrite_cex :
    SyncChannel.send ⟨pipelineBound, [], true⟩ wFrame = SendOutcome.blocked := rfl

/-- C7 amended: the hand-off channel into the render pipeline is a
zero-capacity rendezvous channel: a send never buffers or overwrites a
frame, a send while the pipeline is alive blocks until the pipeline
receives, and a send after the pipeline has terminated reports the closed
condition to the caller rather than failing silently. -/
theorem mailbox_send_spec (c : SyncChannel) (f : Frame)
    (hb : c.bound = pipelineBound) :
    (c.receiverAlive = false → c.send f = SendOutcome.closed)
    ∧ (c.receiverAlive = true → c.send f = SendOutcome.blocked)
    ∧ (∀ c', c.send f ≠ SendOutcome.delivered c') := by
  have hq : ¬ (c.queue.length < c.bound) := by
    rw [hb]
    simp [pipelineBound]
  refine ⟨fun h => ?_, fun h => ?_, fun c' hc' => ?_⟩
  · simp [SyncChannel.send, h]
  · simp [SyncChannel.send, h, hq]
  · rcases hr : c.receiverAlive with _ | _
    · simp [SyncChannel.send, hr] at hc'
    · simp [SyncChannel.send, hr, hq] at hc'

/-- Witness for C7 amended at the concrete pipeline channel state. -/
theorem mailbox_send_spec_check :
    (SyncChannel.mk 0 [] true).bound = pipelineBound
    ∧ ((SyncChannel.mk 0 [] true).receiverAlive = true →
        (SyncChannel.mk 0 [] true).send wFrame = SendOutcome.blocked)
    ∧ (SyncChannel.mk 0 [] true).send wFrame
        ≠ SendOutcome.delivered (SyncChannel.mk 0 [] true) :=
  ⟨rfl, (mailbox_send_spec (SyncChannel.mk 0 [] true) wFrame rfl).2.1,
    (mailbox_send_spec (SyncChannel.mk 0 [] true) wFrame rfl).2.2
      (SyncChannel.mk 0 [] true)⟩

/-- One iteration of the rate-limited forwarder loop as it observes its
environment: the cancellation flag value read at the top of the loop, the
outcome of the blocking recv from the producer channel (none when the
producers hung up), and whether the hand-off send to the render pipeline
succeeded. -/
structure ForwarderStep where
  stopSeen : Bool
  received : Option Frame
  handoffOk : Bool

/-- The loop of spawn_ratelimited_display in main.rs lines 193-208, run
over a sequence of observed iterations and returning the frames
successfully handed to the render pipeline: the flag is checked first and
breaks the loop before any receive, a hung-up producer channel breaks the
loop, and a failed hand-off breaks the loop having forwarded nothing. -/
def forwarderRun : List ForwarderStep → List Frame
  | [] => []
  | s :: rest =>
    if s.stopSeen then []
    else
      match s.received with
      | some f => if s.handoffOk then f :: forwarderRun rest else []
      | none => []

/-- C8: if iteration k of the forwarder observes the cancellation flag
set, the whole run forwards exactly what the first k iterations forward:
nothing from iteration k onward is ever handed to the render pipeline,
and at most k frames are forwarded in total. -/
theorem forwarder_cancellation (steps : List ForwarderStep) (k : Nat)
    (hk : k < steps.length) (hstop : (steps.get ⟨k, hk⟩).stopSeen = true) :
    forwarderRun steps = forwarderRun (steps.take k)
      ∧ (forwarderRun steps).length ≤ k := by
  induction steps generalizing k with
  | nil => exact absurd hk (Nat.not_lt_zero k)
  | cons s rest ih =>
    cases k with
    | zero =>
      simp only [List.get] at hstop
      simp [forwarderRun, hstop]
    | succ k =>
      simp only [List.get] at hstop
      have hk' : k < rest.length := Nat.lt_of_succ_lt_succ hk
      rcases hs : s.stopSeen with _ | _
      · rcases hrecv : s.received with _ | f
        · simp [forwarderRun, hs, hrecv, List.take_succ_cons]
        · rcases hsend : s.handoffOk with _ | _
          · simp [forwarderRun, hs, hrecv, hsend, List.take_succ_cons]
          · have := ih k hk' hstop
            simp only [forwarderRun, hs, hrecv, hsend, List.take_succ_cons,
              if_false, Bool.false_eq_true, ite_false, ite_true]
            constructor
            · rw [this.1]
            · simpa using Nat.succ_le_succ this.2
      · simp [forwarderRun, hs, List.take_succ_cons]

/-- A concrete pair of forwarder iterations: one normal hand-off, then the
flag is observed set. -/
def wSteps : List ForwarderStep :=
  [⟨false, some layer3Frame, true⟩, ⟨true, some col4Frame, true⟩]

/-- Witness for C8 on the concrete iteration sequence wSteps. -/
theorem forwarder_cancellation_check :
    (wSteps.get ⟨1, by decide⟩).stopSeen = true
      ∧ (forwarderRun wSteps = forwarderRun (wSteps.take 1)
        ∧ (forwarderRun wSteps).length ≤ 1) :=
  ⟨by decide, forwarder_cancellation wSteps 1 (by decide) (by decide)⟩
